import Mathlib

/-!
Verification of the rtbf comment-retention tool (src/rtbf/__main__.py).

The Python source is shallowly embedded:
* timestamps are `Int` values in seconds (matching `comment.created_utc`);
  a configured threshold of `m` minutes becomes a cutoff `now - 60 * m`,
  exactly as `datetime.now() - timedelta(minutes=m)` does.  The two
  `datetime.now()` calls in `process_expired_comments` are modelled as a
  single instant `now`;
* Python's substring operator `needle in hay` is modelled by `strContains`;
* the outcome of the external LLM HTTP call (`urlopen` + JSON parsing) is an
  explicit `LlmCallOutcome` argument; `random.choice` takes an index seed;
* the decision branching of `process_expired_comments` (its per-comment loop
  body) is factored into `decide`, and the mutations it enqueues on the
  `PrawQueue` into `process_comment`;
* the queue worker thread `PrawQueue._worker` is modelled by `worker_drain`,
  the single consumer draining the FIFO list of queued operations and
  emitting a trace of events (execution, error logging, sleeping).
-/

namespace Rtbf

/-- Model of Python's `str.startswith` on character lists:
`listHasPrefix needle hay` is true when `needle` is a prefix of `hay`. -/
def listHasPrefix : List Char → List Char → Bool
  | [], _ => true
  | _ :: _, [] => false
  | a :: as, b :: bs => a = b && listHasPrefix as bs

/-- Model of Python's substring test `needle in hay` on character lists:
true when `needle` occurs contiguously anywhere in `hay`. -/
def listContainsSub (needle : List Char) : List Char → Bool
  | [] => needle.isEmpty
  | c :: rest => listHasPrefix needle (c :: rest) || listContainsSub needle rest

/-- Python's `needle in hay` for strings (used by the source for the
ignore-flag test `FLAG_IGNORE in comment.body` and the watermark test
`WATERMARK in comment.body`). -/
def strContains (hay needle : String) : Bool :=
  listContainsSub needle.data hay.data

/-- The `COMMON_EMOJIS` list from the source (emoji strategy token set). -/
def COMMON_EMOJIS : List String :=
  ["😀", "😂", "😊", "😍", "🤔", "😎", "😢", "😡", "🙄", "😴",
   "👍", "👎", "👌", "✌️", "🤷", "🔥", "💯", "❤️", "🎉", "🤝",
   "🌟", "⚡", "💡", "🎯", "🚀", "💪", "🎈", "🎁", "☕", "🍕"]

/-- The policy configuration read from the environment at module load
(EXPIRE_MINUTES, DELETE_MINUTES, STRATEGY, REPLACEMENT_TEXT, WATERMARK,
FLAG_IGNORE, APPEND_WATERMARK). -/
structure Config where
  EXPIRE_MINUTES : Int
  DELETE_MINUTES : Int
  STRATEGY : String
  REPLACEMENT_TEXT : String
  WATERMARK : String
  FLAG_IGNORE : String
  APPEND_WATERMARK : Bool
deriving DecidableEq

/-- Snapshot of a Reddit comment: its id, body text, and creation
timestamp (`created_utc`, seconds). -/
structure Comment where
  id : String
  body : String
  created_utc : Int
deriving DecidableEq

/-- The three possible per-comment decisions of one poll cycle. -/
inductive Decision
  | Skip
  | Obfuscate
  | Delete
deriving DecidableEq, Repr

/-- Model of `get_random_emoji`: `random.choice(COMMON_EMOJIS)`, with the randomness
supplied as an index seed `rng`. -/
def get_random_emoji (rng : Nat) : String :=
  COMMON_EMOJIS.getD (rng % COMMON_EMOJIS.length) "😀"

/-- Outcome of the HTTP request + JSON decoding inside `call_llm_api`.
`response choices` is a decoded JSON object; `choices = none` models a
payload without a usable `"choices"` key, `some l` gives the
`message.content` strings of the choices array.  The error constructors
model the four `except` clauses of the source. -/
inductive LlmCallOutcome
  | response (choices : Option (List String))
  | httpError (code : Nat) (reason : String)
  | connError (reason : String)
  | jsonDecodeError (msg : String)
  | otherError (msg : String)
deriving DecidableEq

/-- An outcome counts as a failure when it is not a well-formed response
with a non-empty choices array (HTTP error, connection error, JSON decode
error, any other exception, or an unexpected-format response). -/
def LlmCallOutcome.isFailure : LlmCallOutcome → Bool
  | .response (some (_ :: _)) => false
  | .response (some []) => true
  | .response none => true
  | .httpError _ _ => true
  | .connError _ => true
  | .jsonDecodeError _ => true
  | .otherError _ => true

/-- Model of `call_llm_api`: on a well-formed response returns the first choice
content (`.strip()`-ed); on every failure falls back to `get_random_emoji` and
logs (the comment text only feeds the prompt of the request). -/
def call_llm_api (comment_text : String) (rng : Nat)
    (outcome : LlmCallOutcome) : String :=
  match outcome with
  | .response (some (content :: _)) => content.trim
  | .response (some []) => get_random_emoji rng
  | .response none => get_random_emoji rng
  | .httpError _ _ => get_random_emoji rng
  | .connError _ => get_random_emoji rng
  | .jsonDecodeError _ => get_random_emoji rng
  | .otherError _ => get_random_emoji rng

/-- A mutation submitted to the praw queue: `edit` is
`update_comment_queued` (comment.edit with new text), `delete` is
`delete_comment_queued` (comment.delete). -/
inductive Mutation
  | edit (commentId : String) (new_text : String)
  | delete (commentId : String)
deriving DecidableEq

/-- Model of `obfuscate_comment`: builds the replacement text per the configured
strategy, appends ` ^(WATERMARK)` when APPEND_WATERMARK is set, and
enqueues the edit.  An unrecognized strategy enqueues nothing (the source
function falls through all three `elif` arms). -/
def obfuscate_comment (cfg : Config) (rng : Nat) (llm : LlmCallOutcome)
    (c : Comment) : List Mutation :=
  if cfg.STRATEGY = "update" then
    let replacement_text :=
      if cfg.APPEND_WATERMARK then
        cfg.REPLACEMENT_TEXT ++ " ^(" ++ cfg.WATERMARK ++ ")"
      else cfg.REPLACEMENT_TEXT
    [.edit c.id replacement_text]
  else if cfg.STRATEGY = "emoji" then
    let base := get_random_emoji rng
    let replacement_text :=
      if cfg.APPEND_WATERMARK then base ++ " ^(" ++ cfg.WATERMARK ++ ")"
      else base
    [.edit c.id replacement_text]
  else if cfg.STRATEGY = "llm" then
    let base := call_llm_api c.body rng llm
    let replacement_text :=
      if cfg.APPEND_WATERMARK then base ++ " ^(" ++ cfg.WATERMARK ++ ")"
      else base
    [.edit c.id replacement_text]
  else []

/-- The lifecycle decision engine: the branching of the per-comment loop
body of `process_expired_comments`.  Cutoffs are `now` minus the threshold
(minutes converted to seconds); the source compares `comment_time <
cutoff`, i.e. the age must strictly exceed the threshold.  The final
`.Skip` inside the deletion branch is the unreachable fall-through of the
inner `if`/`elif` pair (both arms `continue`). -/
def decide (cfg : Config) (now : Int) (c : Comment) : Decision :=
  let obfuscation_cutoff := now - 60 * cfg.EXPIRE_MINUTES
  let deletion_cutoff := now - 60 * cfg.DELETE_MINUTES
  if strContains c.body cfg.FLAG_IGNORE then .Skip
  else
    let is_obfuscation_ready := c.created_utc < obfuscation_cutoff
    let is_deletion_ready := c.created_utc < deletion_cutoff
    let already_obfuscated := strContains c.body cfg.WATERMARK
    if is_deletion_ready then
      if cfg.DELETE_MINUTES = cfg.EXPIRE_MINUTES ∨ already_obfuscated = true then
        .Delete
      else if already_obfuscated = false then .Obfuscate
      else .Skip
    else if is_obfuscation_ready ∧ already_obfuscated = false then .Obfuscate
    else .Skip

/-- The mutations the loop body of `process_expired_comments` enqueues for
one comment in one cycle: nothing on Skip, `delete_comment_queued` on
Delete, and the strategy's edit (via `obfuscate_comment`) on Obfuscate. -/
def process_comment (cfg : Config) (now : Int) (rng : Nat)
    (llm : LlmCallOutcome) (c : Comment) : List Mutation :=
  match decide cfg now c with
  | .Skip => []
  | .Delete => [.delete c.id]
  | .Obfuscate => obfuscate_comment cfg rng llm c

/-- One unit of work submitted to `PrawQueue.put`: an operation id and the
outcome its function call will have when the worker runs it (`.ok` for a
normal return, `.error` for a raised exception). -/
structure QueuedOp where
  opId : Nat
  outcome : Except String Unit

/-- Observable events of the queue worker `PrawQueue._worker`: it runs a
dequeued operation, logs the error when the call raised, and sleeps one
second after every operation (`finally` block). -/
inductive WorkerEvent
  | executed (opId : Nat)
  | errorLogged (opId : Nat) (msg : String)
  | slept (seconds : Nat)
deriving DecidableEq

/-- One iteration of `PrawQueue._worker`: run the operation, on exception
log it (the worker keeps going), then `task_done` and `time.sleep(1)`. -/
def run_queued_op (op : QueuedOp) : List WorkerEvent :=
  match op.outcome with
  | .ok _ => [.executed op.opId, .slept 1]
  | .error msg => [.executed op.opId, .errorLogged op.opId msg, .slept 1]

/-- The single worker thread draining the FIFO queue: the operations are
processed one after another in submission order. -/
def worker_drain (ops : List QueuedOp) : List WorkerEvent :=
  ops.flatMap run_queued_op

/-- Projects the id out of an `executed` event. -/
def executedId : WorkerEvent → Option Nat
  | .executed i => some i
  | _ => none

/-- The environment variables `validate_config` requires (None models an
unset variable). -/
structure Env where
  REDDIT_USERNAME : Option String
  REDDIT_PASSWORD : Option String
  REDDIT_CLIENT_ID : Option String
  REDDIT_CLIENT_SECRET : Option String
deriving DecidableEq

/-- Model of `os.getenv` restricted to the four required variable names. -/
def getenvModel (env : Env) : String → Option String
  | "REDDIT_USERNAME" => env.REDDIT_USERNAME
  | "REDDIT_PASSWORD" => env.REDDIT_PASSWORD
  | "REDDIT_CLIENT_ID" => env.REDDIT_CLIENT_ID
  | "REDDIT_CLIENT_SECRET" => env.REDDIT_CLIENT_SECRET
  | _ => none

/-- Python's `not os.getenv(var)`: true when the variable is unset or set
to the empty string (both are falsy). -/
def envVarMissing : Option String → Bool
  | none => true
  | some s => s = ""

/-- The `required_vars` list of `validate_config`. -/
def required_vars : List String :=
  ["REDDIT_USERNAME", "REDDIT_PASSWORD", "REDDIT_CLIENT_ID",
   "REDDIT_CLIENT_SECRET"]

/-- Model of `validate_config`: raises `ValueError` (as `.error`) when a
required credential is missing/empty or the strategy is not one of
`update`, `emoji`, `llm`; otherwise returns normally.  `LLM_API_KEY` is
deliberately not validated. -/
def validate_config (env : Env) (cfg : Config) : Except String Unit :=
  let missing := required_vars.filter fun v => envVarMissing (getenvModel env v)
  if missing ≠ [] then
    .error ("Missing required environment variables: "
      ++ String.intercalate ", " missing)
  else if ¬ (cfg.STRATEGY = "update" ∨ cfg.STRATEGY = "emoji"
      ∨ cfg.STRATEGY = "llm") then
    .error ("Invalid STRATEGY. Must be update, emoji, or llm")
  else .ok ()

/-- Module-initialization events after validation succeeds. -/
inductive InitEvent
  | platformInit
deriving DecidableEq

/-- Module initialization order: `validate_config()` runs first; only when
it returns normally is the `praw.Reddit(...)` platform client constructed.
A `ValueError` aborts the module load, so an `.error` result carries no
platform-init event at all. -/
def module_init (env : Env) (cfg : Config) : Except String (List InitEvent) :=
  match validate_config env cfg with
  | .error e => .error e
  | .ok _ => .ok [.platformInit]

/-! ### Helper lemmas -/

/-- A list is a `listHasPrefix`-prefix of itself followed by anything. -/
theorem listHasPrefix_append_self (n suf : List Char) :
    listHasPrefix n (n ++ suf) = true := by
  induction n with
  | nil => rfl
  | cons a as ih => simp [listHasPrefix, ih]

/-- The empty needle is contained in every haystack. -/
theorem listContainsSub_nil (l : List Char) :
    listContainsSub [] l = true := by
  cases l <;> rfl

/-- A needle occurring contiguously in the haystack is found by
`listContainsSub`. -/
theorem listContainsSub_of_append (n pre suf : List Char) :
    listContainsSub n (pre ++ n ++ suf) = true := by
  induction pre with
  | nil =>
    rw [List.nil_append]
    cases n with
    | nil => simpa using listContainsSub_nil suf
    | cons a as =>
      have h := listHasPrefix_append_self (a :: as) suf
      simp only [List.cons_append] at h ⊢
      simp only [listContainsSub, Bool.or_eq_true]
      exact Or.inl h
  | cons p ps ih =>
    simp only [List.cons_append, listContainsSub, Bool.or_eq_true]
    right
    simpa using ih

/-- Appending ` ^(w)` to any base makes `w` a substring of the result:
the watermark check of a later cycle finds what `obfuscate_comment`
appended. -/
theorem strContains_append_watermark (base w : String) :
    strContains (base ++ " ^(" ++ w ++ ")") w = true := by
  unfold strContains
  have h : (base ++ " ^(" ++ w ++ ")").data
      = (base.data ++ " ^(".data) ++ w.data ++ ")".data := by
    simp [String.data_append]
  rw [h]
  exact listContainsSub_of_append w.data (base.data ++ " ^(".data) ")".data

/-- Every value `get_random_emoji` can return is in `COMMON_EMOJIS`. -/
theorem get_random_emoji_mem (rng : Nat) :
    get_random_emoji rng ∈ COMMON_EMOJIS := by
  unfold get_random_emoji
  have hpos : 0 < COMMON_EMOJIS.length := by decide
  have hlt : rng % COMMON_EMOJIS.length < COMMON_EMOJIS.length :=
    Nat.mod_lt _ hpos
  rw [List.getD_eq_getElem _ _ hlt]
  exact List.getElem_mem hlt

/-- The ignore-flag branch: the flag check precedes every other test. -/
theorem decide_of_flag (cfg : Config) (now : Int) (c : Comment)
    (h : strContains c.body cfg.FLAG_IGNORE = true) :
    decide cfg now c = .Skip := by
  simp only [Rtbf.decide]
  rw [if_pos h]

/-- The direct-delete branch: deletion ready and (thresholds collapsed or
already watermarked). -/
theorem decide_of_delete (cfg : Config) (now : Int) (c : Comment)
    (hflag : strContains c.body cfg.FLAG_IGNORE = false)
    (hready : c.created_utc < now - 60 * cfg.DELETE_MINUTES)
    (hcase : cfg.DELETE_MINUTES = cfg.EXPIRE_MINUTES
      ∨ strContains c.body cfg.WATERMARK = true) :
    decide cfg now c = .Delete := by
  simp only [Rtbf.decide]
  rw [if_neg (by simp [hflag]), if_pos hready, if_pos hcase]

/-- The obfuscate-before-delete branch: deletion ready, thresholds
distinct, watermark absent. -/
theorem decide_of_delete_pending (cfg : Config) (now : Int) (c : Comment)
    (hflag : strContains c.body cfg.FLAG_IGNORE = false)
    (hready : c.created_utc < now - 60 * cfg.DELETE_MINUTES)
    (hne : ¬ cfg.DELETE_MINUTES = cfg.EXPIRE_MINUTES)
    (hwm : strContains c.body cfg.WATERMARK = false) :
    decide cfg now c = .Obfuscate := by
  simp only [Rtbf.decide]
  rw [if_neg (by simp [hflag]), if_pos hready,
    if_neg (by simp [hne, hwm]), if_pos hwm]

/-- When deletion is not yet ready, the decision reduces to the
obfuscation test. -/
theorem decide_of_not_delete (cfg : Config) (now : Int) (c : Comment)
    (hflag : strContains c.body cfg.FLAG_IGNORE = false)
    (hnot : ¬ c.created_utc < now - 60 * cfg.DELETE_MINUTES) :
    decide cfg now c =
      if c.created_utc < now - 60 * cfg.EXPIRE_MINUTES
          ∧ strContains c.body cfg.WATERMARK = false
      then .Obfuscate else .Skip := by
  simp only [Rtbf.decide]
  rw [if_neg (by simp [hflag]), if_neg hnot]

/-- A recognised strategy always enqueues exactly one edit. -/
theorem obfuscate_comment_edit (cfg : Config) (rng : Nat)
    (llm : LlmCallOutcome) (c : Comment)
    (h : cfg.STRATEGY = "update" ∨ cfg.STRATEGY = "emoji"
      ∨ cfg.STRATEGY = "llm") :
    ∃ t, obfuscate_comment cfg rng llm c = [.edit c.id t] := by
  simp only [obfuscate_comment]
  rcases h with h | h | h
  · rw [if_pos h]
    exact ⟨_, rfl⟩
  · have hu : ¬ cfg.STRATEGY = "update" := by rw [h]; decide
    rw [if_neg hu, if_pos h]
    exact ⟨_, rfl⟩
  · have hu : ¬ cfg.STRATEGY = "update" := by rw [h]; decide
    have he : ¬ cfg.STRATEGY = "emoji" := by rw [h]; decide
    rw [if_neg hu, if_neg he, if_pos h]
    exact ⟨_, rfl⟩

/-! ### Claims -/

/-- C1: a comment whose body contains the ignore-flag token is decided
`Skip` and no mutation (edit or delete) is enqueued for it, whatever its
age, watermark state, strategy, or configuration. -/
theorem claim_C1 (cfg : Config) (now : Int) (rng : Nat)
    (llm : LlmCallOutcome) (c : Comment)
    (h : strContains c.body cfg.FLAG_IGNORE = true) :
    decide cfg now c = .Skip ∧ process_comment cfg now rng llm c = [] := by
  have hd := decide_of_flag cfg now c h
  refine ⟨hd, ?_⟩
  unfold process_comment
  rw [hd]

/-- Witness for C1 at a concrete flagged comment. -/
theorem claim_C1_witness :
    strContains "keep this one /fn please" "/fn" = true ∧
      (decide (Config.mk 120 1440 "update" "[Comment deleted by user]"
          "#rtbf" "/fn" true) 60000
          (Comment.mk "abc" "keep this one /fn please" 0) = .Skip ∧
        process_comment (Config.mk 120 1440 "update"
          "[Comment deleted by user]" "#rtbf" "/fn" true) 60000 0
          (.connError "refused")
          (Comment.mk "abc" "keep this one /fn please" 0) = []) :=
  ⟨by decide, claim_C1 _ _ _ _ _ (by decide)⟩

/-- C9: the decision branches are mutually exclusive, so one cycle
enqueues at most one mutation per comment — never both an edit and a
delete, never two mutations. -/
theorem claim_C9 (cfg : Config) (now : Int) (rng : Nat)
    (llm : LlmCallOutcome) (c : Comment) :
    (process_comment cfg now rng llm c).length ≤ 1 := by
  unfold process_comment
  cases decide cfg now c with
  | Skip => simp
  | Delete => simp
  | Obfuscate =>
    simp only [obfuscate_comment]
    split_ifs <;> simp

/-- C2: an unflagged, unwatermarked comment at age at least the deletion
threshold, with the deletion threshold strictly above the obfuscation
threshold, is decided `Obfuscate` (not `Delete`), and with a recognised
strategy the enqueued mutation is an edit: deletion is deferred. -/
theorem claim_C2 (cfg : Config) (now : Int) (rng : Nat)
    (llm : LlmCallOutcome) (c : Comment)
    (hflag : strContains c.body cfg.FLAG_IGNORE = false)
    (hwm : strContains c.body cfg.WATERMARK = false)
    (hage : 60 * cfg.DELETE_MINUTES ≤ now - c.created_utc)
    (hlt : cfg.EXPIRE_MINUTES < cfg.DELETE_MINUTES) :
    decide cfg now c = .Obfuscate ∧
      ((cfg.STRATEGY = "update" ∨ cfg.STRATEGY = "emoji"
          ∨ cfg.STRATEGY = "llm") →
        ∃ t, process_comment cfg now rng llm c = [.edit c.id t]) := by
  have hne : ¬ cfg.DELETE_MINUTES = cfg.EXPIRE_MINUTES := by omega
  have hd : decide cfg now c = .Obfuscate := by
    rcases lt_or_eq_of_le hage with hstrict | heq
    · exact decide_of_delete_pending cfg now c hflag (by omega) hne hwm
    · rw [decide_of_not_delete cfg now c hflag (by omega)]
      rw [if_pos ⟨by omega, hwm⟩]
  refine ⟨hd, fun hs => ?_⟩
  obtain ⟨t, ht⟩ := obfuscate_comment_edit cfg rng llm c hs
  refine ⟨t, ?_⟩
  unfold process_comment
  rw [hd, ht]

/-- Witness for C2 at the boundary age exactly equal to the deletion
threshold (86400 s = 1440 min, thresholds 120 < 1440). -/
theorem claim_C2_witness :
    strContains "hello" "/fn" = false ∧
      strContains "hello" "#rtbf" = false ∧
      (60 : Int) * 1440 ≤ 86400 - 0 ∧ (120 : Int) < 1440 ∧
      (decide (Config.mk 120 1440 "update" "[Comment deleted by user]"
          "#rtbf" "/fn" true) 86400 (Comment.mk "abc" "hello" 0)
          = .Obfuscate ∧
        ((("update" : String) = "update" ∨ ("update" : String) = "emoji"
            ∨ ("update" : String) = "llm") →
          ∃ t, process_comment (Config.mk 120 1440 "update"
            "[Comment deleted by user]" "#rtbf" "/fn" true) 86400 0
            (.connError "refused") (Comment.mk "abc" "hello" 0)
            = [.edit "abc" t])) :=
  ⟨by decide, by decide, by decide, by decide,
    claim_C2 _ _ _ _ _ (by decide) (by decide) (by decide) (by decide)⟩

/-- Counterexample to C3 as stated: with both thresholds 120 minutes and
an unflagged, unwatermarked comment whose age is exactly the deletion
threshold (7200 s), the code's strict cutoff comparison is false, so the
decision is `Skip`, not `Delete`. -/
theorem claim_C3_counterexample :
    strContains "hello world" "/fn" = false ∧
      (60 : Int) * 120 ≤ 7200 - 0 ∧
      (120 : Int) = 120 ∧
      decide (Config.mk 120 120 "update" "[Comment deleted by user]"
        "#rtbf" "/fn" true) 7200 (Comment.mk "c1" "hello world" 0)
        = .Skip ∧
      ¬ decide (Config.mk 120 120 "update" "[Comment deleted by user]"
        "#rtbf" "/fn" true) 7200 (Comment.mk "c1" "hello world" 0)
        = .Delete := by
  decide

/-- C3 (amended): for an unflagged comment whose age STRICTLY exceeds the
deletion threshold, if the thresholds are equal or the watermark is
present, the decision is `Delete` and the enqueued mutation is the
delete, never an edit. -/
theorem claim_C3 (cfg : Config) (now : Int) (rng : Nat)
    (llm : LlmCallOutcome) (c : Comment)
    (hflag : strContains c.body cfg.FLAG_IGNORE = false)
    (hage : 60 * cfg.DELETE_MINUTES < now - c.created_utc)
    (hcase : cfg.DELETE_MINUTES = cfg.EXPIRE_MINUTES
      ∨ strContains c.body cfg.WATERMARK = true) :
    decide cfg now c = .Delete ∧
      process_comment cfg now rng llm c = [.delete c.id] := by
  have hd : decide cfg now c = .Delete :=
    decide_of_delete cfg now c hflag (by omega) hcase
  refine ⟨hd, ?_⟩
  unfold process_comment
  rw [hd]

/-- Witness for amended C3: equal thresholds, unwatermarked, age one
second past the deletion threshold. -/
theorem claim_C3_witness :
    strContains "hello world" "/fn" = false ∧
      (60 : Int) * 120 < 7201 - 0 ∧
      ((120 : Int) = 120 ∨ strContains "hello world" "#rtbf" = true) ∧
      (decide (Config.mk 120 120 "update" "[Comment deleted by user]"
          "#rtbf" "/fn" true) 7201 (Comment.mk "c1" "hello world" 0)
          = .Delete ∧
        process_comment (Config.mk 120 120 "update"
          "[Comment deleted by user]" "#rtbf" "/fn" true) 7201 0
          (.connError "refused") (Comment.mk "c1" "hello world" 0)
          = [.delete "c1"]) :=
  ⟨by decide, by decide, by decide,
    claim_C3 _ _ _ _ _ (by decide) (by decide) (by decide)⟩

/-- Counterexample to C4 as stated: an unflagged, unwatermarked comment
below the deletion threshold whose age exactly equals the obfuscation
threshold (7200 s = 120 min) is decided `Skip`, not `Obfuscate`: the
boundary age does not count as due under the code's strict comparison. -/
theorem claim_C4_counterexample :
    strContains "hello world" "/fn" = false ∧
      strContains "hello world" "#rtbf" = false ∧
      (7200 - 0 : Int) < 60 * 1440 ∧
      (60 : Int) * 120 ≤ 7200 - 0 ∧
      decide (Config.mk 120 1440 "update" "[Comment deleted by user]"
        "#rtbf" "/fn" true) 7200 (Comment.mk "c1" "hello world" 0)
        = .Skip ∧
      ¬ decide (Config.mk 120 1440 "update" "[Comment deleted by user]"
        "#rtbf" "/fn" true) 7200 (Comment.mk "c1" "hello world" 0)
        = .Obfuscate := by
  decide

/-- C4 (amended): for an unflagged, unwatermarked comment below the
deletion threshold, the decision is `Obfuscate` iff the age STRICTLY
exceeds the obfuscation threshold; otherwise (age ≤ threshold, including
exact equality) it is `Skip` and nothing is enqueued. -/
theorem claim_C4 (cfg : Config) (now : Int) (rng : Nat)
    (llm : LlmCallOutcome) (c : Comment)
    (hflag : strContains c.body cfg.FLAG_IGNORE = false)
    (hwm : strContains c.body cfg.WATERMARK = false)
    (hage : now - c.created_utc < 60 * cfg.DELETE_MINUTES) :
    (decide cfg now c = .Obfuscate
      ↔ 60 * cfg.EXPIRE_MINUTES < now - c.created_utc) ∧
    (¬ 60 * cfg.EXPIRE_MINUTES < now - c.created_utc →
      decide cfg now c = .Skip ∧ process_comment cfg now rng llm c = []) := by
  have hnot : ¬ c.created_utc < now - 60 * cfg.DELETE_MINUTES := by omega
  have hd := decide_of_not_delete cfg now c hflag hnot
  constructor
  · constructor
    · intro hobf
      by_contra hlt
      rw [hd, if_neg (fun hc => hlt (by omega))] at hobf
      exact absurd hobf (by decide)
    · intro hlt
      rw [hd, if_pos ⟨by omega, hwm⟩]
  · intro hlt
    have hs : decide cfg now c = .Skip := by
      rw [hd, if_neg (fun hc => hlt (by omega))]
    refine ⟨hs, ?_⟩
    unfold process_comment
    rw [hs]

/-- Witness for amended C4: age 3000 s, thresholds 120/1440 minutes; the
comment is not yet due, so the decision is `Skip`. -/
theorem claim_C4_witness :
    strContains "hello" "/fn" = false ∧
      strContains "hello" "#rtbf" = false ∧
      (3000 - 0 : Int) < 60 * 1440 ∧
      ((decide (Config.mk 120 1440 "update" "[Comment deleted by user]"
            "#rtbf" "/fn" true) 3000 (Comment.mk "c1" "hello" 0)
            = .Obfuscate
          ↔ (60 : Int) * 120 < 3000 - 0) ∧
        (¬ (60 : Int) * 120 < 3000 - 0 →
          decide (Config.mk 120 1440 "update" "[Comment deleted by user]"
            "#rtbf" "/fn" true) 3000 (Comment.mk "c1" "hello" 0) = .Skip ∧
          process_comment (Config.mk 120 1440 "update"
            "[Comment deleted by user]" "#rtbf" "/fn" true) 3000 0
            (.connError "refused") (Comment.mk "c1" "hello" 0) = [])) :=
  ⟨by decide, by decide, by decide,
    claim_C4 _ _ _ _ _ (by decide) (by decide) (by decide)⟩

/-- C5: the single worker drains the queue in FIFO submission order (the
executed-operation ids are exactly the submitted ids, in order), sleeps
one second after every operation, and an operation that raises is logged
without preventing any later operation from executing. -/
theorem claim_C5 (ops : List QueuedOp) :
    (worker_drain ops).filterMap executedId = ops.map QueuedOp.opId ∧
      (worker_drain ops).count (WorkerEvent.slept 1) = ops.length ∧
      ∀ op ∈ ops, WorkerEvent.executed op.opId ∈ worker_drain ops := by
  induction ops with
  | nil =>
    refine ⟨rfl, rfl, ?_⟩
    intro op h
    cases h
  | cons op rest ih =>
    obtain ⟨ih1, ih2, ih3⟩ := ih
    have hsplit : worker_drain (op :: rest)
        = run_queued_op op ++ worker_drain rest := rfl
    have h1 : (run_queued_op op).filterMap executedId = [op.opId] := by
      cases hout : op.outcome <;> simp [run_queued_op, hout, executedId]
    have h2 : (run_queued_op op).count (WorkerEvent.slept 1) = 1 := by
      cases hout : op.outcome <;>
        simp [run_queued_op, hout, List.count_cons]
    have h3 : WorkerEvent.executed op.opId ∈ run_queued_op op := by
      cases hout : op.outcome <;> simp [run_queued_op, hout]
    refine ⟨?_, ?_, ?_⟩
    · rw [hsplit, List.filterMap_append, h1, ih1, List.map_cons]
      rfl
    · rw [hsplit, List.count_append, h2, ih2, List.length_cons]
      omega
    · intro x hx
      rcases List.mem_cons.mp hx with hx | hx
      · subst hx
        rw [hsplit]
        exact List.mem_append_left _ h3
      · rw [hsplit]
        exact List.mem_append_right _ (ih3 x hx)

/-- Witness for C5: a first operation that raises is logged, and the
second operation still executes, in order, with a sleep after each. -/
theorem claim_C5_witness :
    (worker_drain [QueuedOp.mk 1 (.error "boom"), QueuedOp.mk 2 (.ok ())]
        ).filterMap executedId
      = [QueuedOp.mk 1 (.error "boom"),
          QueuedOp.mk 2 (.ok ())].map QueuedOp.opId ∧
    (worker_drain [QueuedOp.mk 1 (.error "boom"), QueuedOp.mk 2 (.ok ())]
        ).count (WorkerEvent.slept 1)
      = [QueuedOp.mk 1 (.error "boom"), QueuedOp.mk 2 (.ok ())].length ∧
    ∀ op ∈ [QueuedOp.mk 1 (.error "boom"), QueuedOp.mk 2 (.ok ())],
      WorkerEvent.executed op.opId
        ∈ worker_drain [QueuedOp.mk 1 (.error "boom"),
            QueuedOp.mk 2 (.ok ())] :=
  claim_C5 [QueuedOp.mk 1 (.error "boom"), QueuedOp.mk 2 (.ok ())]

/-- C6: whenever the LLM call fails in any way (HTTP error, connection
error, JSON decode error, any other exception, or a response without a
usable choices array), `call_llm_api` returns an element of the built-in
emoji set — it never propagates the failure. -/
theorem claim_C6 (body : String) (rng : Nat) (outcome : LlmCallOutcome)
    (h : outcome.isFailure = true) :
    call_llm_api body rng outcome ∈ COMMON_EMOJIS := by
  cases outcome with
  | response choices =>
    match choices with
    | none => exact get_random_emoji_mem rng
    | some [] => exact get_random_emoji_mem rng
    | some (content :: rest) =>
      simp [LlmCallOutcome.isFailure] at h
  | httpError code reason => exact get_random_emoji_mem rng
  | connError reason => exact get_random_emoji_mem rng
  | jsonDecodeError msg => exact get_random_emoji_mem rng
  | otherError msg => exact get_random_emoji_mem rng

/-- Witness for C6 at a concrete connection error. -/
theorem claim_C6_witness :
    (LlmCallOutcome.connError "connection refused").isFailure = true ∧
      call_llm_api "some comment" 7
        (LlmCallOutcome.connError "connection refused") ∈ COMMON_EMOJIS :=
  ⟨rfl, claim_C6 "some comment" 7 _ rfl⟩

/-- C7: for every recognised strategy, with the append-watermark flag set,
the enqueued edit's body is the strategy's base text with ` ^(WATERMARK)`
appended at the fixed trailing position, so the watermark token occurs in
the new body as a substring. -/
theorem claim_C7 (cfg : Config) (rng : Nat) (llm : LlmCallOutcome)
    (c : Comment)
    (hstrat : cfg.STRATEGY = "update" ∨ cfg.STRATEGY = "emoji"
      ∨ cfg.STRATEGY = "llm")
    (happ : cfg.APPEND_WATERMARK = true) :
    ∃ base, obfuscate_comment cfg rng llm c
        = [.edit c.id (base ++ " ^(" ++ cfg.WATERMARK ++ ")")] ∧
      strContains (base ++ " ^(" ++ cfg.WATERMARK ++ ")") cfg.WATERMARK
        = true := by
  simp only [obfuscate_comment]
  rcases hstrat with h | h | h
  · rw [if_pos h]
    exact ⟨cfg.REPLACEMENT_TEXT,
      by rw [if_pos happ], strContains_append_watermark _ _⟩
  · have hu : ¬ cfg.STRATEGY = "update" := by rw [h]; decide
    rw [if_neg hu, if_pos h]
    exact ⟨get_random_emoji rng,
      by rw [if_pos happ], strContains_append_watermark _ _⟩
  · have hu : ¬ cfg.STRATEGY = "update" := by rw [h]; decide
    have he : ¬ cfg.STRATEGY = "emoji" := by rw [h]; decide
    rw [if_neg hu, if_neg he, if_pos h]
    exact ⟨call_llm_api c.body rng llm,
      by rw [if_pos happ], strContains_append_watermark _ _⟩

/-- Witness for C7: the static strategy with template `[removed]` and
watermark `#rtbf` enqueues the body `[removed] ^(#rtbf)`, which carries
the watermark as a substring. -/
theorem claim_C7_witness :
    (("update" : String) = "update" ∨ ("update" : String) = "emoji"
        ∨ ("update" : String) = "llm") ∧
      (∃ base, obfuscate_comment
          (Config.mk 120 1440 "update" "[removed]" "#rtbf" "/fn" true) 0
          (.connError "refused") (Comment.mk "c1" "original body" 0)
          = [.edit "c1" (base ++ " ^(" ++ "#rtbf" ++ ")")] ∧
        strContains (base ++ " ^(" ++ "#rtbf" ++ ")") "#rtbf" = true) ∧
      obfuscate_comment
          (Config.mk 120 1440 "update" "[removed]" "#rtbf" "/fn" true) 0
          (.connError "refused") (Comment.mk "c1" "original body" 0)
        = [.edit "c1" "[removed] ^(#rtbf)"] ∧
      strContains "[removed] ^(#rtbf)" "#rtbf" = true :=
  ⟨Or.inl rfl,
    claim_C7 _ 0 _ _ (Or.inl rfl) rfl,
    by decide, by decide⟩

/-- Validation returns normally exactly when no required credential
is missing/empty and the strategy is recognised. -/
theorem validate_config_ok_iff (env : Env) (cfg : Config) :
    validate_config env cfg = .ok () ↔
      (required_vars.filter (fun v => envVarMissing (getenvModel env v))
          = []
        ∧ (cfg.STRATEGY = "update" ∨ cfg.STRATEGY = "emoji"
          ∨ cfg.STRATEGY = "llm")) := by
  simp only [validate_config]
  by_cases h1 : required_vars.filter
      (fun v => envVarMissing (getenvModel env v)) = []
  · by_cases h2 : cfg.STRATEGY = "update" ∨ cfg.STRATEGY = "emoji"
        ∨ cfg.STRATEGY = "llm"
    · rw [if_neg (not_not_intro h1), if_neg (not_not_intro h2)]
      simp [h1, h2]
    · rw [if_neg (not_not_intro h1), if_pos h2]
      simp [h2]
  · rw [if_pos h1]
    simp [h1]

/-- C8: module initialization constructs the platform client only when
`validate_config` accepted the configuration; an unknown strategy or a
missing required credential yields an error with no platform-init event,
and every valid configuration passes validation without error. -/
theorem claim_C8 (env : Env) (cfg : Config) :
    (module_init env cfg = .ok [InitEvent.platformInit] ↔
      (required_vars.filter (fun v => envVarMissing (getenvModel env v))
          = []
        ∧ (cfg.STRATEGY = "update" ∨ cfg.STRATEGY = "emoji"
          ∨ cfg.STRATEGY = "llm"))) ∧
    (¬ (required_vars.filter (fun v => envVarMissing (getenvModel env v))
          = []
        ∧ (cfg.STRATEGY = "update" ∨ cfg.STRATEGY = "emoji"
          ∨ cfg.STRATEGY = "llm")) →
      ∃ e, module_init env cfg = .error e) := by
  have hiff := validate_config_ok_iff env cfg
  constructor
  · unfold module_init
    cases hv : validate_config env cfg with
    | error e =>
      rw [hv] at hiff
      constructor
      · intro h
        exact absurd h (by simp)
      · intro h
        exact absurd (hiff.mpr h) (by simp)
    | ok u =>
      cases u
      rw [hv] at hiff
      exact ⟨fun _ => hiff.mp rfl, fun _ => rfl⟩
  · intro hnv
    unfold module_init
    cases hv : validate_config env cfg with
    | error e => exact ⟨e, rfl⟩
    | ok u =>
      cases u
      exact absurd (hiff.mp hv) hnv

/-- Witness for C8: a full credential set with strategy `update` passes
and reaches platform init; the same credentials with strategy `remove`
fail before any platform call. -/
theorem claim_C8_witness :
    module_init (Env.mk (some "user") (some "pass") (some "cid")
        (some "secret"))
        (Config.mk 120 1440 "update" "[x]" "#rtbf" "/fn" true)
      = .ok [InitEvent.platformInit] ∧
    (∃ e, module_init (Env.mk (some "user") (some "pass") (some "cid")
        (some "secret"))
        (Config.mk 120 1440 "remove" "[x]" "#rtbf" "/fn" true)
      = .error e) :=
  ⟨(claim_C8 _ _).1.mpr ⟨by decide, Or.inl rfl⟩,
    (claim_C8 _ _).2 (by intro h; rcases h with ⟨_, h | h | h⟩ <;>
      simp at h)⟩

/-- Counterexample to C10 as stated: with deletion threshold 60 min below
obfuscation threshold 120 min, a valid configuration, and an unflagged,
unwatermarked comment whose age is exactly the deletion threshold
(3600 s), the cycle enqueues nothing — the strict cutoff comparison makes
neither stage due. -/
theorem claim_C10_counterexample :
    validate_config (Env.mk (some "user") (some "pass") (some "cid")
        (some "secret"))
        (Config.mk 120 60 "update" "[x]" "#rtbf" "/fn" true) = .ok () ∧
      (60 : Int) < 120 ∧
      strContains "hello" "/fn" = false ∧
      strContains "hello" "#rtbf" = false ∧
      (60 : Int) * 60 ≤ 3600 - 0 ∧
      (3600 - 0 : Int) < 60 * 120 ∧
      process_comment (Config.mk 120 60 "update" "[x]" "#rtbf" "/fn" true)
        3600 0 (.connError "refused") (Comment.mk "c1" "hello" 0) = [] :=
  ⟨rfl, by decide, by decide, by decide, by decide, by decide, by decide⟩

/-- C10 (amended): startup validation accepts configurations with the
deletion threshold strictly below the obfuscation threshold, and under
such a configuration an unflagged, unwatermarked comment whose age
STRICTLY exceeds the deletion threshold (even while below the obfuscation
threshold) gets an edit mutation enqueued. -/
theorem claim_C10 (env : Env) (cfg : Config) (now : Int) (rng : Nat)
    (llm : LlmCallOutcome) (c : Comment)
    (hmiss : required_vars.filter
      (fun v => envVarMissing (getenvModel env v)) = [])
    (hstrat : cfg.STRATEGY = "update" ∨ cfg.STRATEGY = "emoji"
      ∨ cfg.STRATEGY = "llm")
    (hinv : cfg.DELETE_MINUTES < cfg.EXPIRE_MINUTES)
    (hflag : strContains c.body cfg.FLAG_IGNORE = false)
    (hwm : strContains c.body cfg.WATERMARK = false)
    (hage1 : 60 * cfg.DELETE_MINUTES < now - c.created_utc)
    (hage2 : now - c.created_utc < 60 * cfg.EXPIRE_MINUTES) :
    validate_config env cfg = .ok () ∧
      ∃ t, process_comment cfg now rng llm c = [.edit c.id t] := by
  refine ⟨(validate_config_ok_iff env cfg).mpr ⟨hmiss, hstrat⟩, ?_⟩
  have hd : decide cfg now c = .Obfuscate :=
    decide_of_delete_pending cfg now c hflag (by omega) (by omega) hwm
  obtain ⟨t, ht⟩ := obfuscate_comment_edit cfg rng llm c hstrat
  refine ⟨t, ?_⟩
  unfold process_comment
  rw [hd, ht]

/-- Witness for amended C10: thresholds 60 < 120 minutes, age 4000 s. -/
theorem claim_C10_witness :
    List.filter (fun v => envVarMissing (getenvModel
        (Env.mk (some "user") (some "pass") (some "cid") (some "secret"))
        v)) required_vars = [] ∧
      (("update" : String) = "update" ∨ ("update" : String) = "emoji"
        ∨ ("update" : String) = "llm") ∧
      (60 : Int) < 120 ∧
      strContains "hello" "/fn" = false ∧
      strContains "hello" "#rtbf" = false ∧
      (60 : Int) * 60 < 4000 - 0 ∧
      (4000 - 0 : Int) < 60 * 120 ∧
      (validate_config (Env.mk (some "user") (some "pass") (some "cid")
          (some "secret"))
          (Config.mk 120 60 "update" "[x]" "#rtbf" "/fn" true) = .ok () ∧
        ∃ t, process_comment
          (Config.mk 120 60 "update" "[x]" "#rtbf" "/fn" true) 4000 0
          (.connError "refused") (Comment.mk "c1" "hello" 0)
          = [.edit "c1" t]) :=
  ⟨by decide, Or.inl rfl, by decide, by decide, by decide, by decide,
    by decide,
    claim_C10 _ _ _ _ _ _ (by decide) (Or.inl rfl) (by decide) (by decide)
      (by decide) (by decide) (by decide)⟩

end Rtbf
